import Mathlib

/-!
# rtt_gazebo: the system plugin that drives the RTT simulation clock from Gazebo

A shallow embedding of `rtt_gazebo_system/src/rtt_system_plugin.cpp`.

The plugin has two sides.  The host (Gazebo) calls `updateClock` at the end of every
world update and `stop` once when the simulation stops; both run on the host's thread.
`Init` starts `update_thread_`, which runs `updateClockLoop`.  The two threads are
interleaved by a schedule: a list of events, each of which is either one host callback
or one statement of `updateClockLoop`.  What the host answers to a query of the loop is
carried by the event that executes the query, so the host is an oracle that may answer
differently at every query.

The condition variable belongs to the library.  A thread parked in `wait` is released
by `notify_one`; the library also lets `wait` return without a notification, and the
schedule has an event for that.

The code inside `#ifdef RTT_GAZEBO_DEBUG` is not part of the embedding.
-/

namespace rtt_gazebo_system

/-! ## Data -/

/-- A non-null `gazebo::physics::WorldPtr`; the null pointer is `none : Option WorldPtr`. -/
abbrev WorldPtr := Nat

/-- The two fields of `gazebo::common::Time` the plugin reads.  Both are `int32_t`:
`Time.isInt32` says that a value is one the type can hold. -/
structure Time where
  sec : Int
  nsec : Int
deriving DecidableEq, Repr

/-- The two arguments that `ros::Time(uint32_t sec, uint32_t nsec)` receives at line
126.  Both are `uint32_t`. -/
structure RosTime where
  sec : Nat
  nsec : Nat
deriving DecidableEq, Repr

/-- The values an `int32_t` can hold. -/
def isInt32 (x : Int) : Prop := -2147483648 ≤ x ∧ x < 2147483648

instance (x : Int) : Decidable (isInt32 x) :=
  inferInstanceAs (Decidable (-2147483648 ≤ x ∧ x < 2147483648))

/-- A `gazebo::common::Time` whose fields are values of their type. -/
def Time.isInt32 (t : Time) : Prop :=
  rtt_gazebo_system.isInt32 t.sec ∧ rtt_gazebo_system.isInt32 t.nsec

instance (t : Time) : Decidable t.isInt32 :=
  inferInstanceAs
    (Decidable (rtt_gazebo_system.isInt32 t.sec ∧ rtt_gazebo_system.isInt32 t.nsec))

/-- The conversion of an `int32_t` argument to a `uint32_t` parameter: the value modulo
2^32, so a negative value wraps. -/
def toUInt32 (x : Int) : Nat := (x % 4294967296).toNat

/-- The expression `ros::Time(gz_time.sec, gz_time.nsec)` of line 126: each `int32_t`
field is converted to the `uint32_t` parameter it is passed for. -/
def ros_Time (sec nsec : Int) : RosTime := ⟨toUInt32 sec, toUInt32 nsec⟩

/-- The timestamp that line 126 builds from a simulation time. -/
def Time.toRos (t : Time) : RosTime := ros_Time t.sec t.nsec

/-- What the host answers at one moment: `gazebo::physics::worlds_running()`,
`gazebo::physics::get_world()` and, for a world handle, `world->GetSimTime()`. -/
structure Host where
  worlds_running : Bool
  get_world : Option WorldPtr
  GetSimTime : WorldPtr → Time

/-- A call `updateClockLoop` makes to the host or to the control framework, with the
answer it got (for a query) or the argument it passed (for `update_sim_clock`). -/
inductive Call where
  | worlds_running (answer : Bool)
  | get_world (answer : Option WorldPtr)
  | GetSimTime (world : WorldPtr) (answer : Time)
  | update_sim_clock (t : RosTime)
deriving DecidableEq, Repr

/-- Where `update_thread_` stands in `updateClockLoop`.

* `entry`: started by `Init`, about to take `update_mutex_` (lines 101-102);
* `wait`: parked in `update_cond_.wait(lock)` (line 103);
* `loopTop`: about to test `simulate_clock_` (line 106);
* `worldsRunning`: about to call `worlds_running()` (line 115);
* `getWorld`: about to call `get_world()` and test the handle (lines 118-119);
* `getSimTime world`: about to call `world->GetSimTime()` (line 122);
* `updateSimClock gz_time`: about to call `update_sim_clock` (line 126);
* `done`: the function has returned (line 137). -/
inductive Pc where
  | entry
  | wait
  | loopTop
  | worldsRunning
  | getWorld
  | getSimTime (world : WorldPtr)
  | updateSimClock (gz_time : Time)
  | done
deriving DecidableEq, Repr

/-- The three states of the Clock Bridge. -/
inductive Phase where
  | ArmedWaiting
  | Running
  | Terminated
deriving DecidableEq, Repr

/-- The plugin together with its thread.

* `simulate_clock_` is the member of that name;
* `pc` is the position of `update_thread_`;
* `trace` lists the calls `updateClockLoop` has made, oldest first;
* `notified` counts the calls of `update_cond_.notify_one()`.

`update_mutex_` is free between any two events: the loop holds it only from line 102
until `wait` releases it, and `updateClock` only for the duration of the call. -/
structure State where
  simulate_clock_ : Bool
  pc : Pc
  trace : List Call
  notified : Nat
deriving DecidableEq, Repr

/-- One event of a schedule. -/
inductive Event where
  /-- the host fires `WorldUpdateEnd`, which is connected to `updateClock` -/
  | updateClock
  /-- the host fires `Stop`, which is connected to `stop` -/
  | stop
  /-- the thread executes its next statement; the host answers `h` if it is asked -/
  | thread (h : Host)
  /-- the library lets `update_cond_.wait(lock)` return without a notification -/
  | spurious

/-! ## Operations -/

/-- The phase a position belongs to. -/
def Pc.phase : Pc → Phase
  | .entry => .ArmedWaiting
  | .wait => .ArmedWaiting
  | .done => .Terminated
  | _ => .Running

/-- The phase of a state. -/
def State.phase (s : State) : Phase := s.pc.phase

/-- The effect of `notify_one` on the thread: a thread parked in `wait` is released and
proceeds to the loop; a thread anywhere else is not waiting, and nothing is kept for it. -/
def notify_one : Pc → Pc
  | .wait => .loopTop
  | pc => pc

namespace RTTSystemPlugin

/-- `RTTSystemPlugin::Init`, lines 70-73: the flag is set and the thread is started.
Lines 59-68 put the framework in manual-clock mode and connect the two callbacks;
from here on the host may fire `Event.updateClock` and `Event.stop`. -/
def Init : State :=
  { simulate_clock_ := true, pc := .entry, trace := [], notified := 0 }

/-- `RTTSystemPlugin::updateClock`, lines 86-91. -/
def updateClock (s : State) : State :=
  { s with notified := s.notified + 1, pc := notify_one s.pc }

/-- `RTTSystemPlugin::stop`, lines 93-96. -/
def stop (s : State) : State :=
  { s with simulate_clock_ := false }

/-- The return of `update_cond_.wait(lock)` at line 103 without a notification.  The
call has no predicate and is not in a loop that tests one, so when the library returns
from it spuriously the thread goes on to line 106.  A thread that is not parked in
`wait` is not affected. -/
def spuriousReturn (s : State) : State :=
  match s.pc with
  | .wait => { s with pc := .loopTop }
  | _ => s

/-- One statement of `RTTSystemPlugin::updateClockLoop`, lines 98-137, executed by the
thread at its current position, with `h` the host at that moment.

A thread parked in `wait` is blocked and executes nothing.  It leaves `wait` when the
call returns: by the `notify_one` of `updateClock`, or by `spuriousReturn`. -/
def updateClockLoop (h : Host) (s : State) : State :=
  match s.pc with
  | .entry => { s with pc := .wait }
  | .wait => s
  | .loopTop =>
      if s.simulate_clock_ then { s with pc := .worldsRunning } else { s with pc := .done }
  | .worldsRunning =>
      if !h.worlds_running then
        { s with trace := s.trace ++ [.worlds_running h.worlds_running], pc := .done }
      else
        { s with trace := s.trace ++ [.worlds_running h.worlds_running], pc := .getWorld }
  | .getWorld =>
      match h.get_world with
      | none => { s with trace := s.trace ++ [.get_world none], pc := .done }
      | some world =>
          { s with trace := s.trace ++ [.get_world (some world)], pc := .getSimTime world }
  | .getSimTime world =>
      { s with trace := s.trace ++ [.GetSimTime world (h.GetSimTime world)],
               pc := .updateSimClock (h.GetSimTime world) }
  | .updateSimClock gz_time =>
      { s with trace := s.trace ++ [.update_sim_clock (ros_Time gz_time.sec gz_time.nsec)],
               pc := .loopTop }
  | .done => s

end RTTSystemPlugin

open RTTSystemPlugin

/-- The effect of one event. -/
def step (s : State) : Event → State
  | .updateClock => updateClock s
  | .stop => stop s
  | .thread h => updateClockLoop h s
  | .spurious => spuriousReturn s

/-- The state after a schedule. -/
def run (s : State) (evs : List Event) : State := evs.foldl step s

/-- The timestamps passed to `update_sim_clock`, oldest first. -/
def forwarded : List Call → List RosTime
  | [] => []
  | .update_sim_clock t :: cs => t :: forwarded cs
  | _ :: cs => forwarded cs

/-- The answers of `GetSimTime`, oldest first. -/
def fetched : List Call → List Time
  | [] => []
  | .GetSimTime _ t :: cs => t :: fetched cs
  | _ :: cs => fetched cs

/-- The number of `get_world` queries in a trace. -/
def worldQueries : List Call → Nat
  | [] => 0
  | .get_world _ :: cs => worldQueries cs + 1
  | _ :: cs => worldQueries cs

/-- The number of notifications a schedule delivers to the thread while it is parked in
`wait`, starting from `s`. -/
def delivered : State → List Event → Nat
  | _, [] => 0
  | s, .updateClock :: evs =>
      (if s.pc = .wait then 1 else 0) + delivered (step s .updateClock) evs
  | s, e :: evs => delivered (step s e) evs

/-- The number of times a schedule lets `wait` return without a notification while the
thread is parked in it, starting from `s`. -/
def spuriousReturns : State → List Event → Nat
  | _, [] => 0
  | s, .spurious :: evs =>
      (if s.pc = .wait then 1 else 0) + spuriousReturns (step s .spurious) evs
  | s, e :: evs => spuriousReturns (step s e) evs

/-- The number of statements the thread is given to execute in a schedule. -/
def threadSteps : List Event → Nat
  | [] => 0
  | .thread _ :: evs => threadSteps evs + 1
  | _ :: evs => threadSteps evs

/-- Whether an event is a callback of the host. -/
def Event.isHost : Event → Bool
  | .updateClock => true
  | .stop => true
  | _ => false

/-- Whether an event is a return of `wait` without a notification. -/
def Event.isSpurious : Event → Bool
  | .spurious => true
  | _ => false

/-- Whether an event is the update tick. -/
def Event.isTick : Event → Bool
  | .updateClock => true
  | _ => false

/-- The timestamp as a pair, for comparison. -/
def Time.pair (t : Time) : Int × Int := (t.sec, t.nsec)

/-- The timestamp as a pair, for comparison. -/
def RosTime.pair (t : RosTime) : Int × Int := ((t.sec : Int), (t.nsec : Int))

/-- The order on (seconds, nanoseconds): by seconds, then by nanoseconds. -/
def lexLe (a b : Int × Int) : Prop := a.1 < b.1 ∨ (a.1 = b.1 ∧ a.2 ≤ b.2)

instance : DecidableRel lexLe :=
  fun a b => inferInstanceAs (Decidable (a.1 < b.1 ∨ (a.1 = b.1 ∧ a.2 ≤ b.2)))

/-- A host that answers the same at every query: worlds are running, the world handle
is `0`, and the simulation time is `t`. -/
def steadyHost (t : Time) : Host :=
  { worlds_running := true, get_world := some 0, GetSimTime := fun _ => t }

/-- The number of forwarding calls still possible within the current iteration: one
when the iteration is past its loop-top test, none otherwise. -/
def inFlight : Pc → Nat
  | .worldsRunning => 1
  | .getWorld => 1
  | .getSimTime _ => 1
  | .updateSimClock _ => 1
  | _ => 0

/-- The number of statements the thread still executes before it returns, once the flag
is false and it has left `wait`. -/
def stepsLeft : Pc → Nat
  | .worldsRunning => 5
  | .getWorld => 4
  | .getSimTime _ => 3
  | .updateSimClock _ => 2
  | .loopTop => 1
  | _ => 0

/-- The number of update ticks the host fires in a schedule. -/
def ticks (evs : List Event) : Nat := evs.countP Event.isTick

/-- The schedule in which the thread parks, the host fires one update tick, and the thread
then executes `k` iterations of five statements each, the host answering `host`
throughout. -/
def oneTick (host : Host) (k : Nat) : List Event :=
  [.thread host, .updateClock] ++ List.replicate (5 * k) (.thread host)

/-- The timestamp the thread is about to forward, if it has fetched one and not yet
forwarded it. -/
def pending : Pc → List RosTime
  | .updateSimClock gz_time => [gz_time.toRos]
  | _ => []

/-! ## The transport layer -/

/-- A non-nil `RTT::corba::TaskContextServer::orb`; the nil handle is `none`. -/
abbrev Orb := Nat

/-- A call `Load` or the destructor makes to the control framework. -/
inductive FrameworkCall where
  | os_init
  | setStdStream
  | mayLogStdOut
  | InitOrb
  | ThreadOrb
  | ShutdownOrb
  | DestroyOrb
  | CleanupServers
deriving DecidableEq, Repr

/-- The process-wide state of the transport layer: the static handle
`TaskContextServer::orb`, and the calls made to the framework so far, oldest first. -/
structure TaskContextServer where
  orb : Option Orb
  calls : List FrameworkCall
deriving DecidableEq, Repr

/-- `CORBA::is_nil`. -/
def is_nil (orb : Option Orb) : Bool := orb.isNone

/-- Modelled from the spec: `TaskContextServer::InitOrb` belongs to the control framework
and is not part of this repository; it initialises the transport, after which the handle
is not nil. -/
def InitOrb (c : TaskContextServer) : TaskContextServer :=
  { orb := some 0, calls := c.calls ++ [.InitOrb] }

/-- Modelled from the spec: `TaskContextServer::ThreadOrb` of the control framework starts
the thread that serves transport requests; the handle is not touched. -/
def ThreadOrb (c : TaskContextServer) : TaskContextServer :=
  { c with calls := c.calls ++ [.ThreadOrb] }

/-- Modelled from the spec: `TaskContextServer::ShutdownOrb` of the control framework shuts
the live transport down; the handle is not touched. -/
def ShutdownOrb (c : TaskContextServer) : TaskContextServer :=
  { c with calls := c.calls ++ [.ShutdownOrb] }

/-- Modelled from the spec: `TaskContextServer::DestroyOrb` of the control framework
destroys the transport; the handle is nil afterwards. -/
def DestroyOrb (c : TaskContextServer) : TaskContextServer :=
  { orb := none, calls := c.calls ++ [.DestroyOrb] }

/-- Modelled from the spec: `TaskContextServer::CleanupServers` of the control framework
removes the registered server endpoints; the handle is not touched. -/
def CleanupServers (c : TaskContextServer) : TaskContextServer :=
  { c with calls := c.calls ++ [.CleanupServers] }

/-- `RTTSystemPlugin::Load`, lines 38-54. -/
def RTTSystemPlugin.Load (c : TaskContextServer) : TaskContextServer :=
  let c1 : TaskContextServer :=
    { c with calls := c.calls ++ [.os_init, .setStdStream, .mayLogStdOut] }
  if is_nil c1.orb then ThreadOrb (InitOrb c1) else c1

/-- `RTTSystemPlugin::~RTTSystemPlugin`, lines 76-84. -/
def RTTSystemPlugin.destructor (c : TaskContextServer) : TaskContextServer :=
  if !is_nil c.orb then CleanupServers (DestroyOrb (ShutdownOrb c)) else c

/-- The transport layer of a process in which `Load` has not run. -/
def notLoaded : TaskContextServer := { orb := none, calls := [] }

/-- The number of live shutdowns in a list of calls. -/
def shutdowns (calls : List FrameworkCall) : Nat := calls.count .ShutdownOrb

/-! ## Schedules -/

theorem run_cons (s : State) (e : Event) (evs : List Event) :
    run s (e :: evs) = run (step s e) evs := rfl

theorem run_append (s : State) (xs ys : List Event) :
    run s (xs ++ ys) = run (run s xs) ys := by
  simp [run, List.foldl_append]

theorem forwarded_append (xs ys : List Call) :
    forwarded (xs ++ ys) = forwarded xs ++ forwarded ys := by
  induction xs with
  | nil => rfl
  | cons c cs ih => cases c <;> simp [forwarded, ih]

theorem fetched_append (xs ys : List Call) :
    fetched (xs ++ ys) = fetched xs ++ fetched ys := by
  induction xs with
  | nil => rfl
  | cons c cs ih => cases c <;> simp [fetched, ih]

theorem worldQueries_append (xs ys : List Call) :
    worldQueries (xs ++ ys) = worldQueries xs + worldQueries ys := by
  induction xs with
  | nil => simp [worldQueries]
  | cons c cs ih => cases c <;> simp [worldQueries, ih]; omega

/-! ## The thread before its first wake -/

/-- A step that ends in Armed-Waiting started there and made no call. -/
theorem step_armed_inv (s : State) (e : Event) (h : (step s e).phase = .ArmedWaiting) :
    s.phase = .ArmedWaiting ∧ (step s e).trace = s.trace := by
  obtain ⟨f, pc, tr, n⟩ := s
  cases e with
  | updateClock => cases pc <;> simp_all [step, updateClock, State.phase, Pc.phase, notify_one]
  | stop => cases pc <;> simp_all [step, stop, State.phase, Pc.phase]
  | thread host =>
      obtain ⟨wr, gw, gt⟩ := host
      cases wr <;> cases gw <;> cases f <;> cases pc <;>
        simp_all [step, updateClockLoop, State.phase, Pc.phase]
  | spurious => cases pc <;> simp_all [step, spuriousReturn, State.phase, Pc.phase]

/-- A schedule that ends in Armed-Waiting started there and made no call. -/
theorem run_armed_inv (s : State) (evs : List Event)
    (h : (run s evs).phase = .ArmedWaiting) :
    s.phase = .ArmedWaiting ∧ (run s evs).trace = s.trace := by
  induction evs generalizing s with
  | nil => exact ⟨h, rfl⟩
  | cons e evs ih =>
      rw [run_cons] at h ⊢
      obtain ⟨h1, h2⟩ := ih _ h
      obtain ⟨h3, h4⟩ := step_armed_inv s e h1
      exact ⟨h3, h2.trans h4⟩

/-- As long as no notification is delivered and `wait` does not return without one, the
thread stays in Armed-Waiting. -/
theorem run_undelivered (s : State) (evs : List Event)
    (hs : s.phase = .ArmedWaiting) (hd : delivered s evs = 0)
    (hsp : spuriousReturns s evs = 0) :
    (run s evs).phase = .ArmedWaiting := by
  induction evs generalizing s with
  | nil => exact hs
  | cons e evs ih =>
      rw [run_cons]
      obtain ⟨f, pc, tr, n⟩ := s
      cases e <;> cases pc <;>
        simp_all [delivered, spuriousReturns, step, updateClock, stop, updateClockLoop,
          spuriousReturn, State.phase, Pc.phase, notify_one]

/-! ## General facts about steps -/

/-- Once the loop has returned, nothing moves the thread and no call is made. -/
theorem step_done (s : State) (e : Event) (h : s.pc = .done) :
    (step s e).pc = .done ∧ (step s e).trace = s.trace := by
  obtain ⟨f, pc, tr, n⟩ := s
  cases e <;> simp_all [step, updateClock, stop, updateClockLoop, spuriousReturn, notify_one]

/-- Terminated is final. -/
theorem run_done (s : State) (evs : List Event) (h : s.pc = .done) :
    (run s evs).pc = .done ∧ (run s evs).trace = s.trace := by
  induction evs generalizing s with
  | nil => exact ⟨h, rfl⟩
  | cons e evs ih =>
      rw [run_cons]
      obtain ⟨h1, h2⟩ := step_done s e h
      obtain ⟨h3, h4⟩ := ih _ h1
      exact ⟨h3, h4.trans h2⟩

/-- No event sets the flag. -/
theorem step_flag_false (s : State) (e : Event) (h : s.simulate_clock_ = false) :
    (step s e).simulate_clock_ = false := by
  obtain ⟨f, pc, tr, n⟩ := s
  cases e with
  | updateClock => simpa [step, updateClock] using h
  | stop => simp [step, stop]
  | thread host =>
      obtain ⟨wr, gw, gt⟩ := host
      cases wr <;> cases gw <;> cases pc <;> simp_all [step, updateClockLoop]
  | spurious => cases pc <;> simp_all [step, spuriousReturn]

/-- Once false, the flag stays false. -/
theorem run_flag_false (s : State) (evs : List Event) (h : s.simulate_clock_ = false) :
    (run s evs).simulate_clock_ = false := by
  induction evs generalizing s with
  | nil => exact h
  | cons e evs ih => exact ih _ (step_flag_false s e h)

theorem inFlight_le_one (pc : Pc) : inFlight pc ≤ 1 := by
  cases pc <;> simp [inFlight]

/-- With the flag false, a step does not raise forwarded calls plus calls in flight. -/
theorem step_inFlight (s : State) (e : Event) (h : s.simulate_clock_ = false) :
    (forwarded (step s e).trace).length + inFlight (step s e).pc
      ≤ (forwarded s.trace).length + inFlight s.pc := by
  obtain ⟨f, pc, tr, n⟩ := s
  cases e with
  | updateClock =>
      cases pc <;> simp [step, updateClock, notify_one, inFlight]
  | stop => simp [step, stop]
  | thread host =>
      obtain ⟨wr, gw, gt⟩ := host
      cases wr <;> cases gw <;> cases pc <;>
        simp_all [step, updateClockLoop, inFlight, forwarded_append, forwarded]
  | spurious => cases pc <;> simp [step, spuriousReturn, inFlight]

theorem run_inFlight (s : State) (evs : List Event) (h : s.simulate_clock_ = false) :
    (forwarded (run s evs).trace).length + inFlight (run s evs).pc
      ≤ (forwarded s.trace).length + inFlight s.pc := by
  induction evs generalizing s with
  | nil => exact le_refl _
  | cons e evs ih =>
      rw [run_cons]
      exact le_trans (ih _ (step_flag_false s e h)) (step_inFlight s e h)

theorem stepsLeft_le_five (pc : Pc) : stepsLeft pc ≤ 5 := by
  cases pc <;> simp [stepsLeft]

/-- No step brings the thread back to Armed-Waiting. -/
theorem step_awake (s : State) (e : Event) (hp : s.phase ≠ .ArmedWaiting) :
    (step s e).phase ≠ .ArmedWaiting := fun h => hp (step_armed_inv s e h).1

/-- With the flag false and the thread awake, each of its statements brings it closer to
the end, and no callback of the host takes it further away. -/
theorem step_stepsLeft (s : State) (e : Event) (hf : s.simulate_clock_ = false)
    (hp : s.phase ≠ .ArmedWaiting) :
    stepsLeft (step s e).pc ≤ stepsLeft s.pc - threadSteps [e] := by
  obtain ⟨f, pc, tr, n⟩ := s
  cases e with
  | updateClock =>
      cases pc <;> simp_all [step, updateClock, notify_one, State.phase, Pc.phase, threadSteps]
  | stop => simp [step, stop, threadSteps]
  | thread host =>
      obtain ⟨wr, gw, gt⟩ := host
      cases wr <;> cases gw <;> cases pc <;>
        simp_all [step, updateClockLoop, State.phase, Pc.phase, threadSteps, stepsLeft]
  | spurious =>
      cases pc <;> simp_all [step, spuriousReturn, State.phase, Pc.phase, threadSteps]

theorem threadSteps_cons (e : Event) (evs : List Event) :
    threadSteps (e :: evs) = threadSteps [e] + threadSteps evs := by
  cases e <;> simp [threadSteps]; omega

/-- With the flag false and the thread awake, enough statements bring it to the end. -/
theorem run_terminates (s : State) (evs : List Event) (hf : s.simulate_clock_ = false)
    (hp : s.phase ≠ .ArmedWaiting) (hn : stepsLeft s.pc ≤ threadSteps evs) :
    (run s evs).pc = .done := by
  induction evs generalizing s with
  | nil =>
      obtain ⟨f, pc, tr, n⟩ := s
      cases pc <;> simp_all [stepsLeft, threadSteps, State.phase, Pc.phase, run]
  | cons e evs ih =>
      rw [run_cons]
      have h1 := step_stepsLeft s e hf hp
      rw [threadSteps_cons] at hn
      exact ih _ (step_flag_false s e hf) (step_awake s e hp) (by omega)

/-- A schedule without update ticks delivers no notification. -/
theorem delivered_no_tick (s : State) (evs : List Event)
    (h : ∀ e ∈ evs, e.isTick = false) : delivered s evs = 0 := by
  induction evs generalizing s with
  | nil => rfl
  | cons e evs ih =>
      have he : e.isTick = false := h e (List.mem_cons_self _ _)
      have ht : ∀ e ∈ evs, e.isTick = false := fun x hx => h x (List.mem_cons_of_mem _ hx)
      cases e with
      | updateClock => simp [Event.isTick] at he
      | stop => simpa [delivered] using ih _ ht
      | thread host => simpa [delivered] using ih _ ht
      | spurious => simpa [delivered] using ih _ ht

/-- A schedule without spurious returns has `wait` return only when notified. -/
theorem spuriousReturns_none (s : State) (evs : List Event)
    (h : ∀ e ∈ evs, e.isSpurious = false) : spuriousReturns s evs = 0 := by
  induction evs generalizing s with
  | nil => rfl
  | cons e evs ih =>
      have he : e.isSpurious = false := h e (List.mem_cons_self _ _)
      have ht : ∀ e ∈ evs, e.isSpurious = false :=
        fun x hx => h x (List.mem_cons_of_mem _ hx)
      cases e with
      | updateClock => simpa [spuriousReturns] using ih _ ht
      | stop => simpa [spuriousReturns] using ih _ ht
      | thread host => simpa [spuriousReturns] using ih _ ht
      | spurious => simp [Event.isSpurious] at he

/-- A step only appends to the trace. -/
theorem step_trace_grows (s : State) (e : Event) : s.trace <+: (step s e).trace := by
  obtain ⟨f, pc, tr, n⟩ := s
  cases e with
  | updateClock => simp [step, updateClock]
  | stop => simp [step, stop]
  | thread host =>
      obtain ⟨wr, gw, gt⟩ := host
      cases wr <;> cases gw <;> cases f <;> cases pc <;> simp [step, updateClockLoop]
  | spurious => cases pc <;> simp [step, spuriousReturn]

/-- A schedule only appends to the trace. -/
theorem run_trace_grows (s : State) (evs : List Event) : s.trace <+: (run s evs).trace := by
  induction evs generalizing s with
  | nil => exact List.prefix_refl _
  | cons e evs ih => exact (step_trace_grows s e).trans (ih _)

theorem forwarded_grows {xs ys : List Call} (h : xs <+: ys) :
    forwarded xs <+: forwarded ys := by
  obtain ⟨zs, rfl⟩ := h
  rw [forwarded_append]
  exact List.prefix_append _ _

/-- An iteration whose loop-top test reads the flag as false ends the loop, and no
forwarding call follows. -/
theorem loopTop_false (s : State) (host : Host) (evs : List Event)
    (hpc : s.pc = .loopTop) (hf : s.simulate_clock_ = false) :
    (run s (.thread host :: evs)).pc = .done ∧
    (run s (.thread host :: evs)).trace = s.trace := by
  rw [run_cons]
  have h1 : (step s (.thread host)).pc = .done ∧ (step s (.thread host)).trace = s.trace := by
    obtain ⟨f, pc, tr, n⟩ := s
    simp_all [step, updateClockLoop]
  obtain ⟨h2, h3⟩ := run_done _ evs h1.1
  exact ⟨h2, h3.trans h1.2⟩

/-- Callbacks of the host leave a thread that is not parked where it is. -/
theorem run_hosts (s : State) (evs : List Event) (h : evs.all Event.isHost = true)
    (hpc : s.pc ≠ .wait) : (run s evs).pc = s.pc ∧ (run s evs).trace = s.trace := by
  induction evs generalizing s with
  | nil => exact ⟨rfl, rfl⟩
  | cons e evs ih =>
      rw [run_cons]
      simp only [List.all_cons, Bool.and_eq_true] at h
      have h1 : (step s e).pc = s.pc ∧ (step s e).trace = s.trace := by
        obtain ⟨f, pc, tr, n⟩ := s
        cases e with
        | updateClock => cases pc <;> simp_all [step, updateClock, notify_one]
        | stop => simp [step, stop]
        | thread host => simp [Event.isHost] at h
        | spurious => simp [Event.isHost] at h
      obtain ⟨h2, h3⟩ := ih (step s e) h.2 (by rw [h1.1]; exact hpc)
      exact ⟨h2.trans h1.1, h3.trans h1.2⟩

/-- Update ticks do not touch the flag. -/
theorem run_ticks_flag (s : State) (evs : List Event) (h : evs.all Event.isTick = true) :
    (run s evs).simulate_clock_ = s.simulate_clock_ := by
  induction evs generalizing s with
  | nil => rfl
  | cons e evs ih =>
      rw [run_cons]
      simp only [List.all_cons, Bool.and_eq_true] at h
      rw [ih _ h.2]
      cases e with
      | updateClock => rfl
      | stop => simp [Event.isTick] at h
      | thread host => simp [Event.isTick] at h
      | spurious => simp [Event.isTick] at h

theorem isHost_of_isTick (evs : List Event) (h : evs.all Event.isTick = true) :
    evs.all Event.isHost = true := by
  simp only [List.all_eq_true] at h ⊢
  intro e he
  have := h e he
  cases e <;> simp_all [Event.isTick, Event.isHost]

/-- The statement at line 106 with the flag true. -/
theorem thread_loopTop (s : State) (host : Host) (hpc : s.pc = .loopTop)
    (hf : s.simulate_clock_ = true) :
    (step s (.thread host)).pc = .worldsRunning ∧ (step s (.thread host)).trace = s.trace := by
  obtain ⟨f, pc, tr, n⟩ := s
  simp_all [step, updateClockLoop]

/-- The statement at line 115. -/
theorem thread_worldsRunning (s : State) (host : Host) (hpc : s.pc = .worldsRunning) :
    (step s (.thread host)).pc = (if host.worlds_running then .getWorld else .done) ∧
    (step s (.thread host)).trace = s.trace ++ [.worlds_running host.worlds_running] := by
  obtain ⟨f, pc, tr, n⟩ := s
  obtain ⟨wr, gw, gt⟩ := host
  cases wr <;> simp_all [step, updateClockLoop]

/-- The statements at lines 118-121. -/
theorem thread_getWorld (s : State) (host : Host) (hpc : s.pc = .getWorld) :
    (step s (.thread host)).pc
      = (match host.get_world with | none => .done | some w => .getSimTime w) ∧
    (step s (.thread host)).trace = s.trace ++ [.get_world host.get_world] := by
  obtain ⟨f, pc, tr, n⟩ := s
  obtain ⟨wr, gw, gt⟩ := host
  cases gw <;> simp_all [step, updateClockLoop]

/-- The statement at line 122. -/
theorem thread_getSimTime (s : State) (host : Host) (w : WorldPtr)
    (hpc : s.pc = .getSimTime w) :
    (step s (.thread host)).pc = .updateSimClock (host.GetSimTime w) ∧
    (step s (.thread host)).trace = s.trace ++ [.GetSimTime w (host.GetSimTime w)] := by
  obtain ⟨f, pc, tr, n⟩ := s
  simp_all [step, updateClockLoop]

/-- The statement at line 126. -/
theorem thread_updateSimClock (s : State) (host : Host) (t : Time)
    (hpc : s.pc = .updateSimClock t) :
    (step s (.thread host)).pc = .loopTop ∧
    (step s (.thread host)).trace = s.trace ++ [.update_sim_clock t.toRos] := by
  obtain ⟨f, pc, tr, n⟩ := s
  simp_all [step, updateClockLoop, Time.toRos]

theorem run_snoc (s : State) (evs : List Event) (e : Event) :
    run s (evs ++ [e]) = step (run s evs) e := by
  rw [run_append]; rfl

/-- An iteration of the loop that runs to the forwarding call: the thread
is at the loop top with the flag true, the host answers that worlds are running and
returns a world `w`, and the five statements of the iteration are interleaved with any
callbacks of the host (any number of update ticks before the loop-top test; any ticks
and stops after it).  The iteration appends to the trace exactly the three queries and
one forwarding call; the timestamp forwarded is built by line 126 from the simulation
time that `GetSimTime` returned in this iteration; and the thread is back at the loop
top. -/
theorem iteration_trace (s : State) (h1 h2 h3 h4 h5 : Host) (w : WorldPtr)
    (e0 e1 e2 e3 e4 : List Event)
    (hpc : s.pc = .loopTop) (hf : s.simulate_clock_ = true)
    (he0 : e0.all Event.isTick = true) (he1 : e1.all Event.isHost = true)
    (he2 : e2.all Event.isHost = true) (he3 : e3.all Event.isHost = true)
    (he4 : e4.all Event.isHost = true)
    (hw : h2.worlds_running = true) (hg : h3.get_world = some w) :
    (run s (e0 ++ [.thread h1] ++ e1 ++ [.thread h2] ++ e2 ++ [.thread h3] ++ e3
        ++ [.thread h4] ++ e4 ++ [.thread h5])).trace
      = s.trace ++ [.worlds_running true, .get_world (some w),
          .GetSimTime w (h4.GetSimTime w),
          .update_sim_clock (h4.GetSimTime w).toRos] ∧
    forwarded (run s (e0 ++ [.thread h1] ++ e1 ++ [.thread h2] ++ e2 ++ [.thread h3] ++ e3
        ++ [.thread h4] ++ e4 ++ [.thread h5])).trace
      = forwarded s.trace ++ [(h4.GetSimTime w).toRos] ∧
    (run s (e0 ++ [.thread h1] ++ e1 ++ [.thread h2] ++ e2 ++ [.thread h3] ++ e3
        ++ [.thread h4] ++ e4 ++ [.thread h5])).pc = .loopTop := by
  -- ticks before the loop-top test
  obtain ⟨a1, a2⟩ := run_hosts s e0 (isHost_of_isTick e0 he0) (by rw [hpc]; decide)
  have a3 := run_ticks_flag s e0 he0
  -- line 106
  obtain ⟨b1, b2⟩ := thread_loopTop (run s e0) h1 (a1.trans hpc) (a3.trans hf)
  rw [← run_snoc] at b1 b2
  obtain ⟨c1, c2⟩ := run_hosts (run s (e0 ++ [.thread h1])) e1 he1 (by rw [b1]; decide)
  rw [← run_append] at c1 c2
  -- line 115
  obtain ⟨d1, d2⟩ := thread_worldsRunning (run s (e0 ++ [.thread h1] ++ e1)) h2 (c1.trans b1)
  rw [← run_snoc, hw] at d1 d2
  obtain ⟨f1, f2⟩ := run_hosts (run s (e0 ++ [.thread h1] ++ e1 ++ [.thread h2])) e2 he2
    (by rw [d1]; decide)
  rw [← run_append] at f1 f2
  -- lines 118-121
  obtain ⟨g1, g2⟩ := thread_getWorld
    (run s (e0 ++ [.thread h1] ++ e1 ++ [.thread h2] ++ e2)) h3 (f1.trans d1)
  rw [← run_snoc, hg] at g1 g2
  obtain ⟨i1, i2⟩ := run_hosts
    (run s (e0 ++ [.thread h1] ++ e1 ++ [.thread h2] ++ e2 ++ [.thread h3])) e3 he3
    (by rw [g1]; simp)
  rw [← run_append] at i1 i2
  -- line 122
  obtain ⟨j1, j2⟩ := thread_getSimTime
    (run s (e0 ++ [.thread h1] ++ e1 ++ [.thread h2] ++ e2 ++ [.thread h3] ++ e3)) h4 w
    (i1.trans g1)
  rw [← run_snoc] at j1 j2
  obtain ⟨k1, k2⟩ := run_hosts
    (run s (e0 ++ [.thread h1] ++ e1 ++ [.thread h2] ++ e2 ++ [.thread h3] ++ e3
      ++ [.thread h4])) e4 he4 (by rw [j1]; simp)
  rw [← run_append] at k1 k2
  -- line 126
  obtain ⟨l1, l2⟩ := thread_updateSimClock
    (run s (e0 ++ [.thread h1] ++ e1 ++ [.thread h2] ++ e2 ++ [.thread h3] ++ e3
      ++ [.thread h4] ++ e4)) h5 (h4.GetSimTime w) (k1.trans j1)
  rw [← run_snoc] at l1 l2
  have htrace : (run s (e0 ++ [.thread h1] ++ e1 ++ [.thread h2] ++ e2 ++ [.thread h3] ++ e3
        ++ [.thread h4] ++ e4 ++ [.thread h5])).trace
      = s.trace ++ [.worlds_running true, .get_world (some w),
          .GetSimTime w (h4.GetSimTime w),
          .update_sim_clock (h4.GetSimTime w).toRos] := by
    rw [l2, k2, j2, i2, g2, f2, d2, c2, b2, a2]
    simp
  refine ⟨htrace, ?_, l1⟩
  rw [htrace, forwarded_append]
  rfl

/-! ## What is forwarded is what was fetched -/

/-- A step keeps the timestamps built from the times fetched equal to the timestamps
forwarded followed by the one in hand. -/
theorem step_fetched_forwarded (s : State) (e : Event)
    (h : (fetched s.trace).map Time.toRos = forwarded s.trace ++ pending s.pc) :
    (fetched (step s e).trace).map Time.toRos
      = forwarded (step s e).trace ++ pending (step s e).pc := by
  obtain ⟨f, pc, tr, n⟩ := s
  cases e with
  | updateClock => cases pc <;> simp_all [step, updateClock, notify_one, pending]
  | stop => simpa [step, stop] using h
  | thread host =>
      obtain ⟨wr, gw, gt⟩ := host
      cases wr <;> cases gw <;> cases f <;> cases pc <;>
        simp_all [step, updateClockLoop, pending, fetched_append, forwarded_append, fetched,
          forwarded, Time.toRos]
  | spurious => cases pc <;> simp_all [step, spuriousReturn, pending]

/-- In every execution the timestamps forwarded are those that line 126 builds from the
times fetched, in the same order; the last time fetched may still be in hand. -/
theorem run_fetched_forwarded (evs : List Event) :
    (fetched (run Init evs).trace).map Time.toRos
      = forwarded (run Init evs).trace ++ pending (run Init evs).pc := by
  have gen : ∀ (evs : List Event) (s : State),
      (fetched s.trace).map Time.toRos = forwarded s.trace ++ pending s.pc →
      (fetched (run s evs).trace).map Time.toRos
        = forwarded (run s evs).trace ++ pending (run s evs).pc := by
    intro evs
    induction evs with
    | nil => intro s h; exact h
    | cons e evs ih => intro s h; exact ih _ (step_fetched_forwarded s e h)
  exact gen evs Init rfl

/-- A non-negative `int32_t` is converted to the same number. -/
theorem toUInt32_of_nonneg (x : Int) (h0 : 0 ≤ x) (h1 : isInt32 x) :
    ((toUInt32 x : Nat) : Int) = x := by
  unfold toUInt32
  unfold isInt32 at h1
  rw [Int.toNat_of_nonneg (Int.emod_nonneg _ (by decide))]
  exact Int.emod_eq_of_lt h0 (by omega)

/-- A simulation time with non-negative fields is forwarded with the same seconds and
nanoseconds. -/
theorem toRos_pair (t : Time) (hr : t.isInt32) (hs : 0 ≤ t.sec) (hn : 0 ≤ t.nsec) :
    t.toRos.pair = t.pair := by
  unfold Time.toRos ros_Time RosTime.pair Time.pair
  simp only
  rw [toUInt32_of_nonneg _ hs hr.1, toUInt32_of_nonneg _ hn hr.2]

theorem lexLe_trans {a b c : Int × Int} (h1 : lexLe a b) (h2 : lexLe b c) : lexLe a c := by
  unfold lexLe at *
  omega

/-- Successive answers in order means all answers in order. -/
theorem pairwise_of_chain (l : List (Int × Int)) (h : List.Chain' lexLe l) :
    List.Pairwise lexLe l := by
  haveI : IsTrans (Int × Int) lexLe := ⟨fun _ _ _ => lexLe_trans⟩
  exact List.chain'_iff_pairwise.mp h

/-! ## The loop after one tick -/

/-- A statement of the thread does not touch the flag. -/
theorem thread_flag (s : State) (host : Host) :
    (step s (.thread host)).simulate_clock_ = s.simulate_clock_ := by
  obtain ⟨f, pc, tr, n⟩ := s
  obtain ⟨wr, gw, gt⟩ := host
  cases wr <;> cases gw <;> cases f <;> cases pc <;> simp [step, updateClockLoop]

/-- One uninterrupted iteration against a steady host. -/
theorem steady_iteration (s : State) (t : Time) (hpc : s.pc = .loopTop)
    (hf : s.simulate_clock_ = true) :
    (run s (List.replicate 5 (.thread (steadyHost t)))).pc = .loopTop ∧
    (run s (List.replicate 5 (.thread (steadyHost t)))).simulate_clock_ = true ∧
    forwarded (run s (List.replicate 5 (.thread (steadyHost t)))).trace
      = forwarded s.trace ++ [t.toRos] := by
  have h := iteration_trace s (steadyHost t) (steadyHost t) (steadyHost t) (steadyHost t)
    (steadyHost t) 0 [] [] [] [] [] hpc hf rfl rfl rfl rfl rfl rfl rfl
  have hflag : (run s (List.replicate 5 (.thread (steadyHost t)))).simulate_clock_ = true := by
    simp only [List.replicate, run, List.foldl, thread_flag]
    exact hf
  exact ⟨h.2.2, hflag, h.2.1⟩

theorem oneTick_succ (host : Host) (k : Nat) :
    oneTick host (k + 1) = oneTick host k ++ List.replicate 5 (.thread host) := by
  unfold oneTick
  rw [Nat.mul_succ, List.replicate_add, List.append_assoc]

/-- After one tick and `k` iterations against a steady host, the thread is at the loop
top, the flag is still true, and the time has been forwarded `k` times. -/
theorem oneTick_run (t : Time) (k : Nat) :
    (run Init (oneTick (steadyHost t) k)).pc = .loopTop ∧
    (run Init (oneTick (steadyHost t) k)).simulate_clock_ = true ∧
    forwarded (run Init (oneTick (steadyHost t) k)).trace
      = List.replicate k t.toRos := by
  induction k with
  | zero => exact ⟨rfl, rfl, rfl⟩
  | succ k ih =>
      obtain ⟨h1, h2, h3⟩ := ih
      rw [oneTick_succ, run_append]
      obtain ⟨g1, g2, g3⟩ := steady_iteration _ t h1 h2
      refine ⟨g1, g2, ?_⟩
      rw [g3, h3, List.replicate_succ']

theorem ticks_oneTick (host : Host) (k : Nat) : ticks (oneTick host k) = 1 := by
  simp [ticks, oneTick, List.countP_append, List.countP_replicate, List.countP_cons,
    Event.isTick]

/-- Every timestamp forwarded was built from a time fetched. -/
theorem forwarded_mem_fetched (evs : List Event) (r : RosTime)
    (h : r ∈ forwarded (run Init evs).trace) :
    ∃ t ∈ fetched (run Init evs).trace, t.toRos = r := by
  have h1 : r ∈ (fetched (run Init evs).trace).map Time.toRos := by
    rw [run_fetched_forwarded evs]
    exact List.mem_append_left _ h
  exact List.mem_map.mp h1

/-! ## Iterations that end the loop -/

/-- The start of an iteration: after the loop-top test with the flag true, the thread is
about to ask whether worlds are running, and has made no call. -/
theorem iteration_start (s : State) (h1 : Host) (e0 e1 : List Event)
    (hpc : s.pc = .loopTop) (hf : s.simulate_clock_ = true)
    (he0 : e0.all Event.isTick = true) (he1 : e1.all Event.isHost = true) :
    (run s (e0 ++ [.thread h1] ++ e1)).pc = .worldsRunning ∧
    (run s (e0 ++ [.thread h1] ++ e1)).trace = s.trace := by
  obtain ⟨a1, a2⟩ := run_hosts s e0 (isHost_of_isTick e0 he0) (by rw [hpc]; decide)
  have a3 := run_ticks_flag s e0 he0
  obtain ⟨b1, b2⟩ := thread_loopTop (run s e0) h1 (a1.trans hpc) (a3.trans hf)
  rw [← run_snoc] at b1 b2
  obtain ⟨c1, c2⟩ := run_hosts (run s (e0 ++ [.thread h1])) e1 he1 (by rw [b1]; decide)
  rw [← run_append] at c1 c2
  exact ⟨c1.trans b1, c2.trans (b2.trans a2)⟩

/-- An iteration in which the host reports no running worlds. -/
theorem iteration_no_worlds (s : State) (h1 h2 : Host) (e0 e1 rest : List Event)
    (hpc : s.pc = .loopTop) (hf : s.simulate_clock_ = true)
    (he0 : e0.all Event.isTick = true) (he1 : e1.all Event.isHost = true)
    (hw : h2.worlds_running = false) :
    (run s (e0 ++ [.thread h1] ++ e1 ++ [.thread h2] ++ rest)).pc = .done ∧
    (run s (e0 ++ [.thread h1] ++ e1 ++ [.thread h2] ++ rest)).trace
      = s.trace ++ [.worlds_running false] := by
  obtain ⟨a1, a2⟩ := iteration_start s h1 e0 e1 hpc hf he0 he1
  obtain ⟨b1, b2⟩ := thread_worldsRunning (run s (e0 ++ [.thread h1] ++ e1)) h2 a1
  rw [← run_snoc, hw] at b1 b2
  rw [run_append]
  obtain ⟨c1, c2⟩ := run_done (run s (e0 ++ [.thread h1] ++ e1 ++ [.thread h2])) rest
    (by rw [b1]; rfl)
  exact ⟨c1, by rw [c2, b2, a2]⟩

/-- An iteration in which worlds are running and the host returns a null world. -/
theorem iteration_null_world (s : State) (h1 h2 h3 : Host) (e0 e1 e2 rest : List Event)
    (hpc : s.pc = .loopTop) (hf : s.simulate_clock_ = true)
    (he0 : e0.all Event.isTick = true) (he1 : e1.all Event.isHost = true)
    (he2 : e2.all Event.isHost = true)
    (hw : h2.worlds_running = true) (hg : h3.get_world = none) :
    (run s (e0 ++ [.thread h1] ++ e1 ++ [.thread h2] ++ e2 ++ [.thread h3] ++ rest)).pc
      = .done ∧
    (run s (e0 ++ [.thread h1] ++ e1 ++ [.thread h2] ++ e2 ++ [.thread h3] ++ rest)).trace
      = s.trace ++ [.worlds_running true, .get_world none] := by
  obtain ⟨a1, a2⟩ := iteration_start s h1 e0 e1 hpc hf he0 he1
  obtain ⟨b1, b2⟩ := thread_worldsRunning (run s (e0 ++ [.thread h1] ++ e1)) h2 a1
  rw [← run_snoc, hw] at b1 b2
  obtain ⟨c1, c2⟩ := run_hosts (run s (e0 ++ [.thread h1] ++ e1 ++ [.thread h2])) e2 he2
    (by rw [b1]; decide)
  rw [← run_append] at c1 c2
  obtain ⟨d1, d2⟩ := thread_getWorld
    (run s (e0 ++ [.thread h1] ++ e1 ++ [.thread h2] ++ e2)) h3 (c1.trans b1)
  rw [← run_snoc, hg] at d1 d2
  rw [run_append]
  obtain ⟨f1, f2⟩ := run_done
    (run s (e0 ++ [.thread h1] ++ e1 ++ [.thread h2] ++ e2 ++ [.thread h3])) rest d1
  refine ⟨f1, ?_⟩
  rw [f2, d2, c2, b2, a2]
  simp

/-- A thread that is in Armed-Waiting with the flag false never forwards: whenever and
however it leaves `wait`, the loop-top test ends the loop. -/
theorem run_armed_flag_false (s : State) (evs : List Event)
    (hp : s.phase = .ArmedWaiting) (hf : s.simulate_clock_ = false) :
    forwarded (run s evs).trace = forwarded s.trace := by
  have h1 := run_inFlight s evs hf
  have h2 : inFlight s.pc = 0 := by
    obtain ⟨f, pc, tr, n⟩ := s
    cases pc <;> simp_all [State.phase, Pc.phase, inFlight]
  obtain ⟨zs, hz⟩ := forwarded_grows (run_trace_grows s evs)
  have h3 : zs.length = 0 := by
    have := congrArg List.length hz
    rw [List.length_append] at this
    omega
  rw [← hz, List.length_eq_zero.mp h3, List.append_nil]

/-- **C1.** On every execution started by `Init`, the loop has made no call at all while
the Bridge is in Armed-Waiting; and if no notification has been delivered and `wait` has
not returned without one, the Bridge is in Armed-Waiting and has forwarded nothing.
But the `wait` of line 103 may return without a notification.  In the execution where
the thread parks, `wait` returns spuriously, and the thread runs one iteration against
a host at (10, 0), no `notify_one` has been called, no notification has been delivered,
and (10, 0) has been forwarded. -/
theorem C1_forwards_before_first_notification :
    (∀ evs : List Event, (run Init evs).phase = .ArmedWaiting →
        (run Init evs).trace = [] ∧ (forwarded (run Init evs).trace).length = 0) ∧
    (∀ evs : List Event, delivered Init evs = 0 → spuriousReturns Init evs = 0 →
        (run Init evs).phase = .ArmedWaiting ∧ (forwarded (run Init evs).trace).length = 0) ∧
    (delivered Init ([.thread (steadyHost ⟨10, 0⟩), .spurious]
        ++ List.replicate 5 (.thread (steadyHost ⟨10, 0⟩))) = 0 ∧
      (run Init ([.thread (steadyHost ⟨10, 0⟩), .spurious]
        ++ List.replicate 5 (.thread (steadyHost ⟨10, 0⟩)))).notified = 0 ∧
      forwarded (run Init ([.thread (steadyHost ⟨10, 0⟩), .spurious]
        ++ List.replicate 5 (.thread (steadyHost ⟨10, 0⟩)))).trace = [⟨10, 0⟩]) := by
  have key : ∀ evs : List Event, (run Init evs).phase = .ArmedWaiting →
      (run Init evs).trace = [] ∧ (forwarded (run Init evs).trace).length = 0 := by
    intro evs h
    have h2 := (run_armed_inv Init evs h).2
    have h3 : (run Init evs).trace = [] := h2
    exact ⟨h3, by rw [h3]; rfl⟩
  refine ⟨key, fun evs hd hsp => ?_, by decide, by decide, by decide⟩
  have hp := run_undelivered Init evs rfl hd hsp
  exact ⟨hp, (key evs hp).2⟩

/-- **C2 (amended).** Let `s` be any state of an execution at which `stop` is called, and
`post` any continuation.  The flag is false from then on.  The timestamps forwarded
before remain, and at most one more is forwarded (the one in flight).  An iteration that
starts after the stop reads the flag as false at its loop-top test, ends the loop, and
makes no forwarding call.  Once the thread is out of Armed-Waiting, five of its own
statements suffice to reach Terminated. -/
theorem C2_after_stop (s : State) (post : List Event) :
    (run (stop s) post).simulate_clock_ = false ∧
    forwarded s.trace <+: forwarded (run (stop s) post).trace ∧
    (forwarded (run (stop s) post).trace).length ≤ (forwarded s.trace).length + 1 ∧
    (∀ mid rest host, post = mid ++ .thread host :: rest →
        (run (stop s) mid).pc = .loopTop →
        (run (stop s) post).phase = .Terminated ∧
        forwarded (run (stop s) post).trace = forwarded (run (stop s) mid).trace) ∧
    (∀ mid rest, post = mid ++ rest →
        (run (stop s) mid).phase ≠ .ArmedWaiting → 5 ≤ threadSteps rest →
        (run (stop s) post).phase = .Terminated) := by
  have hf : (stop s).simulate_clock_ = false := rfl
  refine ⟨run_flag_false _ _ hf, ?_, ?_, ?_, ?_⟩
  · exact forwarded_grows (run_trace_grows (stop s) post)
  · have h1 := run_inFlight (stop s) post hf
    have h2 := inFlight_le_one (stop s).pc
    have h3 : (stop s).trace = s.trace := rfl
    rw [h3] at h1
    omega
  · intro mid rest host hpost hpc
    subst hpost
    rw [run_append]
    obtain ⟨h1, h2⟩ := loopTop_false (run (stop s) mid) host rest hpc (run_flag_false _ _ hf)
    refine ⟨?_, by rw [h2]⟩
    unfold State.phase
    rw [h1]
    rfl
  · intro mid rest hpost hph hn
    subst hpost
    rw [run_append]
    have h1 := run_terminates (run (stop s) mid) rest (run_flag_false _ _ hf) hph
      (le_trans (stepsLeft_le_five _) hn)
    unfold State.phase
    rw [h1]
    rfl

/-- **C2, witness.** The thread is woken by a tick and is past the loop-top test when
`stop` is called: the timestamp in flight is forwarded, and after five statements the
thread is in Terminated. -/
theorem C2_after_stop_witness :
    (run (stop (run Init [.thread (steadyHost ⟨10, 0⟩), .updateClock,
        .thread (steadyHost ⟨10, 0⟩)])) []).phase ≠ .ArmedWaiting ∧
    5 ≤ threadSteps (List.replicate 5 (.thread (steadyHost ⟨10, 0⟩))) ∧
    (run (stop (run Init [.thread (steadyHost ⟨10, 0⟩), .updateClock,
        .thread (steadyHost ⟨10, 0⟩)]))
      (List.replicate 5 (.thread (steadyHost ⟨10, 0⟩)))).phase = .Terminated :=
  ⟨by decide, by decide,
    (C2_after_stop _ _).2.2.2.2 [] _ rfl (by decide) (by decide)⟩

/-- **C2, counterexample.** The thread parks, `stop` is called, and no tick follows:
however many statements the thread is given, it never reaches Terminated. -/
theorem C2_counterexample :
    ¬ ∃ n : Nat, (run (stop (run Init [.thread (steadyHost ⟨10, 0⟩)]))
        (List.replicate n (.thread (steadyHost ⟨10, 0⟩)))).phase = .Terminated := by
  rintro ⟨n, h⟩
  have hd : delivered (stop (run Init [.thread (steadyHost ⟨10, 0⟩)]))
      (List.replicate n (.thread (steadyHost ⟨10, 0⟩))) = 0 :=
    delivered_no_tick _ _ (fun e he => by rw [List.eq_of_mem_replicate he]; rfl)
  have hsp : spuriousReturns (stop (run Init [.thread (steadyHost ⟨10, 0⟩)]))
      (List.replicate n (.thread (steadyHost ⟨10, 0⟩))) = 0 :=
    spuriousReturns_none _ _ (fun e he => by rw [List.eq_of_mem_replicate he]; rfl)
  have hp := run_undelivered (stop (run Init [.thread (steadyHost ⟨10, 0⟩)])) _ rfl hd hsp
  rw [hp] at h
  cases h

/-- **C4 (amended).** When the simulation time the host answers is (10, 0) at every
query, every timestamp the Bridge forwards is (10, 0).  The number of forwarding calls
is the number of iterations the loop completes, not the number of ticks: in the run
where the thread parks, the host fires exactly one update tick, and the thread then
completes `k` iterations, (10, 0) is forwarded `k` times. -/
theorem C4_one_tick_forwards_every_iteration (evs : List Event) (k : Nat)
    (h : ∀ t ∈ fetched (run Init evs).trace, t = ⟨10, 0⟩) :
    (∀ r ∈ forwarded (run Init evs).trace, r = ⟨10, 0⟩) ∧
    ticks (oneTick (steadyHost ⟨10, 0⟩) k) = 1 ∧
    forwarded (run Init (oneTick (steadyHost ⟨10, 0⟩) k)).trace
      = List.replicate k ⟨10, 0⟩ := by
  refine ⟨?_, ticks_oneTick _ k, (oneTick_run ⟨10, 0⟩ k).2.2⟩
  intro r hr
  obtain ⟨t, ht, h1⟩ := forwarded_mem_fetched evs r hr
  rw [← h1, h t ht]
  rfl

/-- **C4, witness.** One tick, one completed iteration, then `stop`: (10, 0) is
forwarded once. -/
theorem C4_one_tick_forwards_every_iteration_witness :
    (∀ t ∈ fetched (run Init (oneTick (steadyHost ⟨10, 0⟩) 1 ++ [.stop,
        .thread (steadyHost ⟨10, 0⟩)])).trace, t = ⟨10, 0⟩) ∧
    (∀ r ∈ forwarded (run Init (oneTick (steadyHost ⟨10, 0⟩) 1 ++ [.stop,
        .thread (steadyHost ⟨10, 0⟩)])).trace, r = ⟨10, 0⟩) ∧
    forwarded (run Init (oneTick (steadyHost ⟨10, 0⟩) 1)).trace = [⟨10, 0⟩] :=
  ⟨by decide,
    (C4_one_tick_forwards_every_iteration _ 1 (by decide)).1,
    (C4_one_tick_forwards_every_iteration
      (oneTick (steadyHost ⟨10, 0⟩) 1 ++ [.stop, .thread (steadyHost ⟨10, 0⟩)]) 1
      (by decide)).2.2⟩

/-- **C4, counterexample.** The host fires exactly one update tick and answers (10, 0)
at every query; the thread completes two iterations and has forwarded (10, 0) twice. -/
theorem C4_counterexample :
    ticks (oneTick (steadyHost ⟨10, 0⟩) 2) = 1 ∧
    fetched (run Init (oneTick (steadyHost ⟨10, 0⟩) 2)).trace = [⟨10, 0⟩, ⟨10, 0⟩] ∧
    forwarded (run Init (oneTick (steadyHost ⟨10, 0⟩) 2)).trace = [⟨10, 0⟩, ⟨10, 0⟩] ∧
    (forwarded (run Init (oneTick (steadyHost ⟨10, 0⟩) 2)).trace).length ≠ 1 := by
  decide

/-- **C5.** Take any iteration that starts at the loop top with the flag true and in
which the host reports that no worlds are running, interleaved with any callbacks of the
host and followed by any continuation.  The only call the iteration makes is
`worlds_running`; the thread is then in Terminated, and neither in this iteration nor
later is there a `get_world` query, a `GetSimTime` query or a forwarding call. -/
theorem C5_no_worlds_terminates (s : State) (h1 h2 : Host) (e0 e1 rest : List Event)
    (hpc : s.pc = .loopTop) (hf : s.simulate_clock_ = true)
    (he0 : e0.all Event.isTick = true) (he1 : e1.all Event.isHost = true)
    (hw : h2.worlds_running = false) :
    (run s (e0 ++ [.thread h1] ++ e1 ++ [.thread h2] ++ rest)).phase = .Terminated ∧
    (run s (e0 ++ [.thread h1] ++ e1 ++ [.thread h2] ++ rest)).trace
      = s.trace ++ [.worlds_running false] ∧
    worldQueries (run s (e0 ++ [.thread h1] ++ e1 ++ [.thread h2] ++ rest)).trace
      = worldQueries s.trace ∧
    fetched (run s (e0 ++ [.thread h1] ++ e1 ++ [.thread h2] ++ rest)).trace
      = fetched s.trace ∧
    forwarded (run s (e0 ++ [.thread h1] ++ e1 ++ [.thread h2] ++ rest)).trace
      = forwarded s.trace := by
  obtain ⟨a1, a2⟩ := iteration_no_worlds s h1 h2 e0 e1 rest hpc hf he0 he1 hw
  refine ⟨?_, a2, ?_, ?_, ?_⟩
  · unfold State.phase; rw [a1]; rfl
  · rw [a2, worldQueries_append]; rfl
  · rw [a2, fetched_append]; simp [fetched]
  · rw [a2, forwarded_append]; simp [forwarded]

/-- **C5, witness.** The first iteration after the wake finds no running worlds; the
thread has returned, whatever comes after. -/
theorem C5_no_worlds_terminates_witness :
    (run Init [.thread (steadyHost ⟨10, 0⟩), .updateClock]).pc = .loopTop ∧
    (run (run Init [.thread (steadyHost ⟨10, 0⟩), .updateClock])
      ([.updateClock] ++ [.thread (steadyHost ⟨10, 0⟩)] ++ [.updateClock]
        ++ [.thread { worlds_running := false, get_world := some 0,
                      GetSimTime := fun _ => ⟨10, 0⟩ }]
        ++ [.updateClock, .thread (steadyHost ⟨10, 0⟩),
            .thread (steadyHost ⟨10, 0⟩)])).trace
      = [.worlds_running false] :=
  ⟨rfl, (C5_no_worlds_terminates _ (steadyHost ⟨10, 0⟩)
      { worlds_running := false, get_world := some 0, GetSimTime := fun _ => ⟨10, 0⟩ }
      [.updateClock] [.updateClock]
      [.updateClock, .thread (steadyHost ⟨10, 0⟩), .thread (steadyHost ⟨10, 0⟩)]
      rfl rfl rfl rfl rfl).2.1⟩

/-- **C6.** Take any iteration that starts at the loop top with the flag true and in
which the host reports running worlds and then returns a null world, interleaved with
any callbacks of the host and followed by any continuation.  The iteration makes the
calls `worlds_running` and `get_world` and no other; the thread is then in Terminated;
and neither in this iteration nor later is there a `GetSimTime` query, a forwarding call
or a second `get_world` query. -/
theorem C6_null_world_terminates (s : State) (h1 h2 h3 : Host) (e0 e1 e2 rest : List Event)
    (hpc : s.pc = .loopTop) (hf : s.simulate_clock_ = true)
    (he0 : e0.all Event.isTick = true) (he1 : e1.all Event.isHost = true)
    (he2 : e2.all Event.isHost = true)
    (hw : h2.worlds_running = true) (hg : h3.get_world = none) :
    (run s (e0 ++ [.thread h1] ++ e1 ++ [.thread h2] ++ e2 ++ [.thread h3] ++ rest)).phase
      = .Terminated ∧
    (run s (e0 ++ [.thread h1] ++ e1 ++ [.thread h2] ++ e2 ++ [.thread h3] ++ rest)).trace
      = s.trace ++ [.worlds_running true, .get_world none] ∧
    worldQueries
        (run s (e0 ++ [.thread h1] ++ e1 ++ [.thread h2] ++ e2 ++ [.thread h3] ++ rest)).trace
      = worldQueries s.trace + 1 ∧
    fetched
        (run s (e0 ++ [.thread h1] ++ e1 ++ [.thread h2] ++ e2 ++ [.thread h3] ++ rest)).trace
      = fetched s.trace ∧
    forwarded
        (run s (e0 ++ [.thread h1] ++ e1 ++ [.thread h2] ++ e2 ++ [.thread h3] ++ rest)).trace
      = forwarded s.trace := by
  obtain ⟨a1, a2⟩ := iteration_null_world s h1 h2 h3 e0 e1 e2 rest hpc hf he0 he1 he2 hw hg
  refine ⟨?_, a2, ?_, ?_, ?_⟩
  · unfold State.phase; rw [a1]; rfl
  · rw [a2, worldQueries_append]; rfl
  · rw [a2, fetched_append]; simp [fetched]
  · rw [a2, forwarded_append]; simp [forwarded]

/-- **C6, witness.** The first iteration after the wake gets a null world; the host
offers a world afterwards, and the thread, having returned, does not ask again. -/
theorem C6_null_world_terminates_witness :
    (run Init [.thread (steadyHost ⟨10, 0⟩), .updateClock]).pc = .loopTop ∧
    (run (run Init [.thread (steadyHost ⟨10, 0⟩), .updateClock])
      ([] ++ [.thread (steadyHost ⟨10, 0⟩)] ++ [] ++ [.thread (steadyHost ⟨10, 0⟩)]
        ++ [.updateClock]
        ++ [.thread { worlds_running := true, get_world := none,
                      GetSimTime := fun _ => ⟨10, 0⟩ }]
        ++ [.updateClock, .thread (steadyHost ⟨10, 0⟩),
            .thread (steadyHost ⟨10, 0⟩)])).trace
      = [.worlds_running true, .get_world none] :=
  ⟨rfl, (C6_null_world_terminates _ (steadyHost ⟨10, 0⟩) (steadyHost ⟨10, 0⟩)
      { worlds_running := true, get_world := none, GetSimTime := fun _ => ⟨10, 0⟩ }
      [] [] [.updateClock]
      [.updateClock, .thread (steadyHost ⟨10, 0⟩), .thread (steadyHost ⟨10, 0⟩)]
      rfl rfl rfl rfl rfl rfl rfl).2.1⟩

/-- **C8.** For every state, `updateClock` makes one call of `notify_one` and nothing
else: the loop's trace of host queries and forwarding calls is unchanged, the flag is
unchanged, and the thread is where it was unless it was parked in `wait`, in which case
the notification has released it. -/
theorem C8_updateClock_only_notifies (s : State) :
    (updateClock s).notified = s.notified + 1 ∧
    (updateClock s).trace = s.trace ∧
    fetched (updateClock s).trace = fetched s.trace ∧
    forwarded (updateClock s).trace = forwarded s.trace ∧
    (updateClock s).simulate_clock_ = s.simulate_clock_ ∧
    ((updateClock s).pc = s.pc ∨ (s.pc = .wait ∧ (updateClock s).pc = .loopTop)) ∧
    step s .updateClock = updateClock s := by
  refine ⟨rfl, rfl, rfl, rfl, rfl, ?_, rfl⟩
  obtain ⟨f, pc, tr, n⟩ := s
  cases pc <;> simp [updateClock, notify_one]

/-- **C9.** For every state, `stop` sets the flag to false, makes no call of
`notify_one`, and leaves the thread where it is.  When `stop` is called while the Bridge
is in Armed-Waiting, no forwarding call is made in any continuation; and in every
continuation that delivers no tick to the parked thread and in which `wait` does not
return without a notification, the Bridge is still in Armed-Waiting.  But the `wait` of
line 103 may return without a notification.  In the execution where the thread parks,
`stop` is called, `wait` returns spuriously and the thread executes one statement, no
tick has been delivered and the Bridge is in Terminated. -/
theorem C9_parked_thread_leaves_wait_after_stop :
    (∀ s : State, (stop s).simulate_clock_ = false ∧ (stop s).notified = s.notified ∧
      (stop s).pc = s.pc ∧ (stop s).trace = s.trace) ∧
    (∀ pre post : List Event, (run Init pre).phase = .ArmedWaiting →
      forwarded (run (stop (run Init pre)) post).trace = []) ∧
    (∀ pre post : List Event, (run Init pre).phase = .ArmedWaiting →
      delivered (stop (run Init pre)) post = 0 →
      spuriousReturns (stop (run Init pre)) post = 0 →
      (run (stop (run Init pre)) post).phase = .ArmedWaiting ∧
      (run (stop (run Init pre)) post).trace = []) ∧
    ((run Init [.thread (steadyHost ⟨10, 0⟩)]).phase = .ArmedWaiting ∧
      delivered (stop (run Init [.thread (steadyHost ⟨10, 0⟩)]))
        [.spurious, .thread (steadyHost ⟨10, 0⟩)] = 0 ∧
      (run (stop (run Init [.thread (steadyHost ⟨10, 0⟩)]))
        [.spurious, .thread (steadyHost ⟨10, 0⟩)]).notified = 0 ∧
      (run (stop (run Init [.thread (steadyHost ⟨10, 0⟩)]))
        [.spurious, .thread (steadyHost ⟨10, 0⟩)]).phase = .Terminated) := by
  refine ⟨fun s => ⟨rfl, rfl, rfl, rfl⟩, ?_, ?_, by decide, by decide, by decide, by decide⟩
  · intro pre post hp
    have h1 := run_armed_flag_false (stop (run Init pre)) post hp rfl
    have h2 : (stop (run Init pre)).trace = [] := (run_armed_inv Init pre hp).2
    rw [h1, h2]
    rfl
  · intro pre post hp hd hsp
    have h1 : (run (stop (run Init pre)) post).phase = .ArmedWaiting :=
      run_undelivered (stop (run Init pre)) post hp hd hsp
    refine ⟨h1, ?_⟩
    have a := (run_armed_inv (stop (run Init pre)) post h1).2
    have b : (stop (run Init pre)).trace = [] := (run_armed_inv Init pre hp).2
    rw [a, b]

/-- **C10.** The destructor tests the handle before it acts.  In every state in which
the handle is nil the destructor makes no call and leaves the state unchanged; this is
so when `Load` has not run.  With the framework's `DestroyOrb` leaving the handle nil,
running the destructor twice gives the same state as running it once, and the two runs
together add at most one live shutdown. -/
theorem C10_teardown_guarded (c : TaskContextServer) :
    (c.orb = none → RTTSystemPlugin.destructor c = c) ∧
    RTTSystemPlugin.destructor notLoaded = notLoaded ∧
    (RTTSystemPlugin.destructor c).orb = none ∧
    RTTSystemPlugin.destructor (RTTSystemPlugin.destructor c) = RTTSystemPlugin.destructor c ∧
    shutdowns (RTTSystemPlugin.destructor (RTTSystemPlugin.destructor c)).calls
      ≤ shutdowns c.calls + 1 ∧
    (c.orb ≠ none →
      (RTTSystemPlugin.destructor c).calls
        = c.calls ++ [.ShutdownOrb, .DestroyOrb, .CleanupServers]) := by
  obtain ⟨orb, calls⟩ := c
  cases orb with
  | none =>
      simp [RTTSystemPlugin.destructor, is_nil, notLoaded]
  | some o =>
      simp [RTTSystemPlugin.destructor, is_nil, notLoaded, CleanupServers, DestroyOrb,
        ShutdownOrb, shutdowns, List.count_append]

/-- **C10, witness.** `Load` starts the transport in a fresh process; the destructor
shuts it down once, and a second run of the destructor changes nothing. -/
theorem C10_teardown_guarded_witness :
    (RTTSystemPlugin.destructor (RTTSystemPlugin.Load notLoaded)).orb = none ∧
    RTTSystemPlugin.destructor (RTTSystemPlugin.destructor (RTTSystemPlugin.Load notLoaded))
      = RTTSystemPlugin.destructor (RTTSystemPlugin.Load notLoaded) ∧
    (RTTSystemPlugin.destructor (RTTSystemPlugin.destructor (RTTSystemPlugin.Load notLoaded))).calls
      = [.os_init, .setStdStream, .mayLogStdOut, .InitOrb, .ThreadOrb,
         .ShutdownOrb, .DestroyOrb, .CleanupServers] :=
  ⟨rfl,
    (C10_teardown_guarded (RTTSystemPlugin.destructor (RTTSystemPlugin.Load notLoaded))).1 rfl,
    rfl⟩

end rtt_gazebo_system
